import Mathlib

/-!
Verification of the `PrismaQueryBuilder` class from
`src/app/utils/queryBuilder.ts` of the health-care-service repository.

The embedding models JavaScript runtime values with the inductive type
`JVal`: JS objects are association lists in `Object.keys` insertion order,
JS numbers are exact rationals (`Rat`; infinite values are outside the
model and are folded into the `none`/NaN case of the numeric parsers, and
float rounding is not modelled), dates are abstracted to an integer day
index (the `dateWise` method zeroes the time-of-day components, so day
granularity is faithful for the repository's uses).  Methods of the class
that can only be reached with a value of the wrong runtime type throwing a
`TypeError` (`.split` on a non-string) are embedded in `Except String`;
methods that cannot throw are total functions.  The injected data-access
handle (`prismaModel`) is threaded as an explicit `count` argument of
`getMeta` instead of being stored in the structure.  `console.warn` side
effects and the in-place update of `this.args` performed by
`getPrismaArgs` are not modelled (the returned value is).
-/

/-- A JavaScript runtime value, as used by the query builder. -/
inductive JVal where
  | str : String → JVal
  | num : Rat → JVal
  | bool : Bool → JVal
  | arr : List JVal → JVal
  | obj : List (String × JVal) → JVal
  | date : Int → JVal
  | null : JVal
  | undefined : JVal
deriving Repr

/-- JS property read `o[k]`: the stored value, or `undefined` when absent. -/
def objGet (o : List (String × JVal)) (k : String) : JVal :=
  match o.find? (fun p => p.1 == k) with
  | some p => p.2
  | none => .undefined

/-- JS `delete o[k]`. -/
def objDelete (o : List (String × JVal)) (k : String) : List (String × JVal) :=
  o.filter (fun p => p.1 != k)

/-- JS assignment `o[k] = v`: overwrite in place if the key exists
(keeping its position), otherwise append. -/
def objSet (o : List (String × JVal)) (k : String) (v : JVal) : List (String × JVal) :=
  if o.any (fun p => p.1 == k) then o.map (fun p => if p.1 == k then (k, v) else p)
  else o ++ [(k, v)]

/-- JS spread merge `{...a, ...b}`. -/
def objMerge (a b : List (String × JVal)) : List (String × JVal) :=
  b.foldl (fun acc p => objSet acc p.1 p.2) a

/-- Same assignment semantics for `Record<string, boolean>` objects. -/
def bObjSet (o : List (String × Bool)) (k : String) (v : Bool) : List (String × Bool) :=
  if o.any (fun p => p.1 == k) then o.map (fun p => if p.1 == k then (k, v) else p)
  else o ++ [(k, v)]

/-- JS truthiness of a value. -/
def truthy : JVal → Bool
  | .str s => s != ""
  | .num n => n != 0
  | .bool b => b
  | .arr _ => true
  | .obj _ => true
  | .date _ => true
  | .null => false
  | .undefined => false

/-- JS whitespace (the common subset used by `trim` / numeric coercion). -/
def isJsWs (c : Char) : Bool := c == ' ' || c == '\t' || c == '\n' || c == '\r'

/-- `String.prototype.trim`, over character lists. -/
def trimChars (l : List Char) : List Char :=
  ((l.dropWhile isJsWs).reverse.dropWhile isJsWs).reverse

/-- `s.trim()`. -/
def jsTrim (s : String) : String := String.mk (trimChars s.data)

/-- `l.split(c)` on character lists: JS `"".split(",") = [""]`. -/
def splitOnChar (c : Char) : List Char → List (List Char)
  | [] => [[]]
  | x :: xs =>
    let r := splitOnChar c xs
    if x == c then [] :: r
    else
      match r with
      | [] => [[x]]
      | h :: t => (x :: h) :: t

/-- `s.split(",")`. -/
def jsSplitComma (s : String) : List String :=
  (splitOnChar ',' s.data).map (fun cs => String.mk cs)

/-- Value of a list of decimal digit characters. -/
def digitsVal (l : List Char) : Nat :=
  l.foldl (fun a c => a * 10 + (c.toNat - 48)) 0

/-- Value of one digit character in the given radix, if valid. -/
def radixDigit (r : Nat) (c : Char) : Option Nat :=
  let v :=
    if c.isDigit then some (c.toNat - 48)
    else if 'a' ≤ c && c ≤ 'f' then some (c.toNat - 87)
    else if 'A' ≤ c && c ≤ 'F' then some (c.toNat - 55)
    else none
  match v with
  | some d => if d < r then some d else none
  | none => none

/-- Radix-prefixed integer literal body (after `0x`/`0b`/`0o`), entire. -/
def parseRadix (r : Nat) (l : List Char) : Option Rat :=
  if l.isEmpty then none
  else
    (l.foldl
        (fun acc c =>
          match acc, radixDigit r c with
          | some a, some d => some (a * r + d)
          | _, _ => none)
        (some 0)).map (fun n => (n : Rat))

/-- Exponent digits: the whole remaining input must be non-empty digits. -/
def parseExpDigits (l : List Char) : Option Nat :=
  if l.isEmpty || !(l.all Char.isDigit) then none else some (digitsVal l)

/-- Exponent part after `e`/`E`: optional sign then digits. -/
def parseExpPart (l : List Char) : Option Int :=
  match l with
  | '+' :: rest => (parseExpDigits rest).map (fun n => (n : Int))
  | '-' :: rest => (parseExpDigits rest).map (fun n => -(n : Int))
  | _ => (parseExpDigits l).map (fun n => (n : Int))

/-- Unsigned decimal literal: digits, optional `.` fraction, optional
exponent; the entire input must be consumed; at least one digit. -/
def parseUnsignedDec (l : List Char) : Option Rat :=
  let ip := l.takeWhile Char.isDigit
  let r1 := l.dropWhile Char.isDigit
  let fp :=
    match r1 with
    | '.' :: rest => rest.takeWhile Char.isDigit
    | _ => []
  let r2 :=
    match r1 with
    | '.' :: rest => rest.dropWhile Char.isDigit
    | _ => r1
  if ip.isEmpty && fp.isEmpty then none
  else
    let mant : Rat := (digitsVal (ip ++ fp) : Rat) / ((10 : Rat) ^ fp.length)
    match r2 with
    | [] => some mant
    | e :: rest =>
      if e == 'e' || e == 'E' then
        (parseExpPart rest).map (fun k => mant * (10 : Rat) ^ k)
      else none

/-- JS `Number(s)` for a string, `none` meaning NaN.  Exact-rational
model: the `"Infinity"` spellings (non-finite, hence rejected by the
builder's finiteness guard anyway) are mapped to `none`. -/
def jsStrToNumber (s : String) : Option Rat :=
  match trimChars s.data with
  | [] => some 0
  | '0' :: 'x' :: rest => parseRadix 16 rest
  | '0' :: 'X' :: rest => parseRadix 16 rest
  | '0' :: 'b' :: rest => parseRadix 2 rest
  | '0' :: 'B' :: rest => parseRadix 2 rest
  | '0' :: 'o' :: rest => parseRadix 8 rest
  | '0' :: 'O' :: rest => parseRadix 8 rest
  | '+' :: rest =>
    if rest = "Infinity".data then none else parseUnsignedDec rest
  | '-' :: rest =>
    if rest = "Infinity".data then none else (parseUnsignedDec rest).map Neg.neg
  | t =>
    if t = "Infinity".data then none else parseUnsignedDec t

/-- Whether `parseFloat(s)` is not NaN: after leading whitespace and an
optional sign there is a digit, or a `.` followed by a digit. -/
def parseFloatHasNumber (s : String) : Bool :=
  let t := s.data.dropWhile isJsWs
  let t :=
    match t with
    | '+' :: r => r
    | '-' :: r => r
    | r => r
  match t with
  | [] => false
  | '.' :: c :: _ => c.isDigit
  | c :: _ => c.isDigit

/-- Rational to string; integers print as in JS, which is the only case
reachable from the declared query-value shape. -/
def ratToString (q : Rat) : String :=
  if q.den = 1 then toString q.num else toString q

mutual

/-- JS `ToString` of a value. -/
def jsToString : JVal → String
  | .str s => s
  | .num n => ratToString n
  | .bool b => if b then "true" else "false"
  | .arr l => String.intercalate "," (jsToStrings l)
  | .obj _ => "[object Object]"
  | .date t => "Date:" ++ toString t
  | .null => "null"
  | .undefined => "undefined"

/-- Array elements for `Array.prototype.toString`: `null`/`undefined`
become the empty string. -/
def jsToStrings : List JVal → List String
  | [] => []
  | JVal.null :: vs => "" :: jsToStrings vs
  | JVal.undefined :: vs => "" :: jsToStrings vs
  | v :: vs => jsToString v :: jsToStrings vs

end

/-- JS `Number(v)` on an arbitrary value, `none` meaning NaN. -/
def jsToNumber : JVal → Option Rat
  | .str s => jsStrToNumber s
  | .num n => some n
  | .bool b => some (if b then 1 else 0)
  | .null => some 0
  | .undefined => none
  | .date t => some (t : Rat)
  | .arr l => jsStrToNumber (String.intercalate "," (jsToStrings l))
  | .obj _ => none

/-- Signed digit prefix for `parseInt`. -/
def parseIntSigned (sign : Int) (l : List Char) : Option Int :=
  let ds := l.takeWhile Char.isDigit
  if ds.isEmpty then none else some (sign * (digitsVal ds : Int))

/-- `parseInt(s, 10)` on the characters of `ToString(v)`. -/
def parseIntChars (l : List Char) : Option Int :=
  match l.dropWhile isJsWs with
  | '+' :: r => parseIntSigned 1 r
  | '-' :: r => parseIntSigned (-1) r
  | r => parseIntSigned 1 r

/-- `parseInt(v, 10)`, `none` meaning NaN. -/
def jsParseInt (v : JVal) : Option Int := parseIntChars (jsToString v).data

/-- `Number(x) || default`: NaN and `0` are falsy and fall back. -/
def numOr (v : Option Rat) (d : Rat) : Rat :=
  match v with
  | some x => if x = 0 then d else x
  | none => d

/-- `Math.floor` on the exact-rational number model. -/
def ratFloor (q : Rat) : Int := Int.fdiv q.num q.den

/-- `Math.ceil` on the exact-rational number model. -/
def ratCeil (q : Rat) : Int := -(ratFloor (-q))

/-- Reserved query-parameter keys, from `src/app/constants/excludeFields.ts`. -/
def excludeFields : List String :=
  ["searchTerm", "sort", "fields", "page", "limit", "days", "dateField", "populate"]

/-- Sort direction of one `orderBy` entry. -/
inductive Dir where
  | asc : Dir
  | desc : Dir
deriving Repr, DecidableEq

/-- The accumulating Prisma `findMany` arguments (`this.args`). -/
structure BuilderArgs where
  whereArg : List (String × JVal)
  orderBy : Option (List (String × Dir))
  skip : Rat
  take : Rat
  select : Option (List (String × Bool))
  include' : Option (List (String × Bool))
deriving Repr

/-- The builder's instance state.  `today` abstracts the current date (a
day index) read by `dateWise`; the data-access handle is not stored but
passed to `getMeta` directly. -/
structure PrismaQueryBuilder where
  query : List (String × JVal)
  searchableFields : List String
  filterableFields : List String
  args : BuilderArgs
  whereClause : List (String × JVal)
  searchClause : List (String × JVal)
  today : Int
deriving Repr

/-- The constructor: shallow-copies the query and initialises defaults
(`skip = 0`, `take = 20`). -/
def mkBuilder (query : List (String × JVal)) (searchableFields filterableFields : List String)
    (today : Int) : PrismaQueryBuilder :=
  { query := query
    searchableFields := searchableFields
    filterableFields := filterableFields
    args :=
      { whereArg := []
        orderBy := none
        skip := 0
        take := 20
        select := none
        include' := none }
    whereClause := []
    searchClause := []
    today := today }

/-- `autoParseValue`: non-strings pass through; `"true"`/`"false"` become
booleans; strings passing the `Number`/`parseFloat`/`isFinite` guard
become numbers; every other string is returned unchanged. -/
def autoParseValue (v : JVal) : JVal :=
  match v with
  | .str s =>
    if s = "true" then .bool true
    else if s = "false" then .bool false
    else
      match jsStrToNumber s with
      | some n => if parseFloatHasNumber s then .num n else .str s
      | none => .str s
  | v => v

/-- The value-cleanup predicate of `filter()`: values compared with `===`
against `""`, `"all"`, `null`, `undefined`, `"null"`, `"undefined"`. -/
def isDroppedValue : JVal → Bool
  | .str "" => true
  | .str "all" => true
  | .str "null" => true
  | .str "undefined" => true
  | .null => true
  | .undefined => true
  | _ => false

/-- One step of the filter-building loop over `Object.keys(filterQuery)`:
keys outside the allowlist are skipped; non-array object values have each
operator value auto-parsed (a `Date` is an object with no enumerable
keys); everything else is auto-parsed directly. -/
def filterStep (filterableFields : List String) (acc : List (String × JVal))
    (kv : String × JVal) : List (String × JVal) :=
  if filterableFields.contains kv.1 then
    match kv.2 with
    | .obj ops => objSet acc kv.1 (.obj (ops.map (fun p => (p.1, autoParseValue p.2))))
    | .date _ => objSet acc kv.1 (.obj [])
    | v => objSet acc kv.1 (autoParseValue v)
  else acc

/-- The filter clause computed by `filter()` from the query and the
allowlist: reserved keys deleted, dropped values removed, then the
allowlisted keys auto-parsed in `Object.keys` order. -/
def filtersOf (filterableFields : List String) (q : List (String × JVal)) :
    List (String × JVal) :=
  let filterQuery := excludeFields.foldl objDelete q
  let filterQuery := filterQuery.filter (fun p => !(isDroppedValue p.2))
  filterQuery.foldl (filterStep filterableFields) []

/-- `filter()`: stores the computed clause, overwriting `whereClause`. -/
def PrismaQueryBuilder.filter (b : PrismaQueryBuilder) : PrismaQueryBuilder :=
  { b with whereClause := filtersOf b.filterableFields b.query }

/-- The OR search clause over the searchable fields for a search term. -/
def searchClauseOf (searchableFields : List String) (searchTerm : JVal) :
    List (String × JVal) :=
  [("OR", .arr (searchableFields.map (fun f =>
    JVal.obj [(f, JVal.obj [("contains", searchTerm), ("mode", JVal.str "insensitive")])])))]

/-- `search()`: when `searchTerm` is truthy and there are searchable
fields, store the OR clause; otherwise leave the search clause as is. -/
def PrismaQueryBuilder.search (b : PrismaQueryBuilder) : PrismaQueryBuilder :=
  let searchTerm := objGet b.query "searchTerm"
  if truthy searchTerm && !b.searchableFields.isEmpty then
    { b with searchClause := searchClauseOf b.searchableFields searchTerm }
  else b

/-- One sort token: a leading `-` means descending with the prefix
stripped, otherwise ascending. -/
def sortToken (f : String) : String × Dir :=
  match f.data with
  | '-' :: rest => (String.mk rest, .desc)
  | _ => (f, .asc)

/-- The successful body of `sort()` for an established sort string. -/
def sortWith (b : PrismaQueryBuilder) (sortBy : String) : PrismaQueryBuilder :=
  { b with args := { b.args with orderBy := some ((jsSplitComma sortBy).map sortToken) } }

/-- `sort()`: `(query.sort as string) || "-createdAt"` then `.split(",")`;
a truthy non-string value makes `.split` throw a `TypeError`. -/
def PrismaQueryBuilder.sort (b : PrismaQueryBuilder) : Except String PrismaQueryBuilder :=
  let v := objGet b.query "sort"
  if truthy v then
    match v with
    | .str s => .ok (sortWith b s)
    | _ => .error "TypeError"
  else .ok (sortWith b "-createdAt")

/-- `paginate()`: `page` and `limit` via `Math.max(1, Number(x) || d)`,
then `skip = (page - 1) * take`. -/
def PrismaQueryBuilder.paginate (b : PrismaQueryBuilder) : PrismaQueryBuilder :=
  let page := max 1 (numOr (jsToNumber (objGet b.query "page")) 1)
  let take := max 1 (numOr (jsToNumber (objGet b.query "limit")) 10)
  { b with args := { b.args with skip := (page - 1) * take, take := take } }

/-- The `Record<string, boolean>` built by `fields()`/`populate()` from a
comma-separated list: each trimmed entry mapped to `true`. -/
def boolObjOf (s : String) : List (String × Bool) :=
  (jsSplitComma s).foldl (fun acc f => bObjSet acc (jsTrim f) true) []

/-- The successful body of `fields()` for an established fields string. -/
def fieldsWith (b : PrismaQueryBuilder) (fieldsStr : String) : PrismaQueryBuilder :=
  { b with args := { b.args with select := some (boolObjOf fieldsStr) } }

/-- `fields()`: skipped when the `fields` parameter is falsy; a truthy
non-string value makes `.split` throw a `TypeError`. -/
def PrismaQueryBuilder.fields (b : PrismaQueryBuilder) : Except String PrismaQueryBuilder :=
  let v := objGet b.query "fields"
  if truthy v then
    match v with
    | .str s => .ok (fieldsWith b s)
    | _ => .error "TypeError"
  else .ok b

/-- The successful body of `populate()`: builds the include object,
discards an already-set `select`, and stores `include`. -/
def populateWith (b : PrismaQueryBuilder) (populateStr : String) : PrismaQueryBuilder :=
  let inc := boolObjOf populateStr
  let args := b.args
  let args := if args.select.isSome then { args with select := none } else args
  { b with args := { args with include' := some inc } }

/-- `populate()`: skipped when the `populate` parameter is falsy; a
truthy non-string value makes `.split` throw a `TypeError`. -/
def PrismaQueryBuilder.populate (b : PrismaQueryBuilder) : Except String PrismaQueryBuilder :=
  let v := objGet b.query "populate"
  if truthy v then
    match v with
    | .str s => .ok (populateWith b s)
    | _ => .error "TypeError"
  else .ok b

/-- `(query.dateField as string) || "createdAt"`, coerced to a property
key string when used as a computed key. -/
def dateFieldName (q : List (String × JVal)) : String :=
  let v := objGet q "dateField"
  if truthy v then jsToString v else "createdAt"

/-- `dateWise()`: when `parseInt(query.days, 10)` is truthy and positive,
merge `{[dateField]: {gte: startOfDay(now - days)}}` into the filter
clause by shallow spread. -/
def PrismaQueryBuilder.dateWise (b : PrismaQueryBuilder) : PrismaQueryBuilder :=
  match jsParseInt (objGet b.query "days") with
  | some d =>
    if d ≠ 0 ∧ 0 < d then
      let dateFilter := [(dateFieldName b.query, JVal.obj [("gte", JVal.date (b.today - d))])]
      { b with whereClause := objMerge b.whereClause dateFilter }
    else b
  | none => b

/-- `buildFinalWhereClause()`: AND of the non-empty clauses, a single
clause directly, or the empty object. -/
def PrismaQueryBuilder.buildFinalWhereClause (b : PrismaQueryBuilder) :
    List (String × JVal) :=
  let conditions : List (List (String × JVal)) :=
    (if b.whereClause.isEmpty then [] else [b.whereClause]) ++
      (if b.searchClause.isEmpty then [] else [b.searchClause])
  match conditions with
  | [] => []
  | [c] => c
  | cs => [("AND", .arr (cs.map JVal.obj))]

/-- `getPrismaArgs()`: finalise the combined where clause and drop
`select` when `include` is present. -/
def PrismaQueryBuilder.getPrismaArgs (b : PrismaQueryBuilder) : BuilderArgs :=
  let args := { b.args with whereArg := b.buildFinalWhereClause }
  if args.include'.isSome then { args with select := none } else args

/-- The pagination metadata returned by `getMeta()`. -/
structure PaginationMeta where
  page : Int
  limit : Rat
  total : Nat
  totalPages : Int
deriving Repr, DecidableEq

/-- `getMeta()`: count over the combined where clause (a rejection of the
injected `count` propagates), then derive the metadata. -/
def PrismaQueryBuilder.getMeta {ε : Type} (count : List (String × JVal) → Except ε Nat)
    (b : PrismaQueryBuilder) : Except ε PaginationMeta :=
  match count b.buildFinalWhereClause with
  | .error e => .error e
  | .ok totalDocuments =>
    .ok
      { page := ratFloor (b.args.skip / b.args.take) + 1
        limit := b.args.take
        total := totalDocuments
        totalPages := ratCeil ((totalDocuments : Rat) / b.args.take) }

/-- Names of the seven chainable configuration operations. -/
inductive Op where
  | filter : Op
  | search : Op
  | sort : Op
  | paginate : Op
  | fields : Op
  | populate : Op
  | dateWise : Op
deriving Repr, DecidableEq

/-- Apply one configuration operation; the three operations that call
`.split` on a query value are fallible. -/
def applyOp : Op → PrismaQueryBuilder → Except String PrismaQueryBuilder
  | .filter, b => .ok b.filter
  | .search, b => .ok b.search
  | .sort, b => b.sort
  | .paginate, b => .ok b.paginate
  | .fields, b => b.fields
  | .populate, b => b.populate
  | .dateWise, b => .ok b.dateWise

/-- Run a chain of configuration calls left to right. -/
def runOps : List Op → PrismaQueryBuilder → Except String PrismaQueryBuilder
  | [], b => .ok b
  | o :: os, b => (applyOp o b).bind (runOps os)

/-- Whether a value survives being used as the receiver of `.split`
inside `sort`/`fields`/`populate`: strings always do, any other value
only when it is falsy (the method then skips or uses a default). -/
def isSplitSafe : JVal → Bool
  | .str _ => true
  | v => !truthy v

/-- Whether an operation completes without throwing; this depends only on
the query mapping, which no operation mutates. -/
def opOk : Op → List (String × JVal) → Bool
  | .sort, q => isSplitSafe (objGet q "sort")
  | .fields, q => isSplitSafe (objGet q "fields")
  | .populate, q => isSplitSafe (objGet q "populate")
  | _, _ => true

/-- The successful-path semantics of each operation as a total function;
it agrees with `applyOp` whenever `opOk` holds. -/
def applyOpT : Op → PrismaQueryBuilder → PrismaQueryBuilder
  | .filter, b => b.filter
  | .search, b => b.search
  | .sort, b =>
    match objGet b.query "sort" with
    | .str s => if s == "" then sortWith b "-createdAt" else sortWith b s
    | _ => sortWith b "-createdAt"
  | .paginate, b => b.paginate
  | .fields, b =>
    match objGet b.query "fields" with
    | .str s => if s == "" then b else fieldsWith b s
    | _ => b
  | .populate, b =>
    match objGet b.query "populate" with
    | .str s => if s == "" then b else populateWith b s
    | _ => b
  | .dateWise, b => b.dateWise

/-- `Except.isOk` for the chain results. -/
def isOkE {ε α : Type} : Except ε α → Bool
  | .ok _ => true
  | .error _ => false

/-- C1: `getMeta()` and `getPrismaArgs()` compute the combined filter by
the same rule — both non-empty clauses give a two-element AND, exactly
one gives that clause, none gives the empty match-all object — and on the
same clause state both produce the identical combined expression:
`getPrismaArgs` in its `where` field and `getMeta` as the argument of the
injected `count`. -/
theorem getMeta_getPlan_combine_rule (b : PrismaQueryBuilder) :
    (b.buildFinalWhereClause =
      if !b.whereClause.isEmpty && !b.searchClause.isEmpty then
        [("AND", JVal.arr [JVal.obj b.whereClause, JVal.obj b.searchClause])]
      else if !b.whereClause.isEmpty then b.whereClause
      else if !b.searchClause.isEmpty then b.searchClause
      else []) ∧
    b.getPrismaArgs.whereArg = b.buildFinalWhereClause ∧
    (∀ (ε : Type) (count : List (String × JVal) → Except ε Nat),
      b.getMeta count =
        (count b.buildFinalWhereClause).map (fun t =>
          { page := ratFloor (b.args.skip / b.args.take) + 1
            limit := b.args.take
            total := t
            totalPages := ratCeil ((t : Rat) / b.args.take) })) := by
  refine ⟨?_, ?_, ?_⟩
  · unfold PrismaQueryBuilder.buildFinalWhereClause
    cases hw : b.whereClause.isEmpty <;> cases hs : b.searchClause.isEmpty <;> simp
  · cases hi : b.args.include' <;>
      simp [PrismaQueryBuilder.getPrismaArgs, hi]
  · intro ε count
    unfold PrismaQueryBuilder.getMeta
    cases h : count b.buildFinalWhereClause <;> simp [h, Except.map]

/-- C5: the final plan never carries both `select` and `include`; when
both were requested the include set wins — in particular
`fields("a,b")` then `populate("c")` yields `include {c: true}` and no
`select`. -/
theorem plan_select_include_exclusive (b : PrismaQueryBuilder) :
    (b.getPrismaArgs.include' = none ∨ b.getPrismaArgs.select = none) ∧
    Except.map (fun b' => (b'.getPrismaArgs.select, b'.getPrismaArgs.include'))
        ((mkBuilder [("fields", JVal.str "a,b"), ("populate", JVal.str "c")] [] [] 0).fields.bind
          PrismaQueryBuilder.populate) =
      .ok (none, some [("c", true)]) := by
  constructor
  · unfold PrismaQueryBuilder.getPrismaArgs
    cases hi : b.args.include' <;> simp [hi]
  · rfl

/-- C6: `paginate()` reads `page` (default 1) and `limit` (default 10)
with the `Number(x) || default` rule, floors each to a minimum of 1, and
sets `skip = (page-1)*take`; with no parameters this gives `skip=0,
take=10`, and with `page=3, limit=5` it gives `skip=10, take=5`. -/
theorem paginate_rule (b : PrismaQueryBuilder) :
    (b.paginate.args.take = max 1 (numOr (jsToNumber (objGet b.query "limit")) 10) ∧
      b.paginate.args.skip =
        (max 1 (numOr (jsToNumber (objGet b.query "page")) 1) - 1) *
          max 1 (numOr (jsToNumber (objGet b.query "limit")) 10)) ∧
    ((mkBuilder [] [] [] 0).paginate.args.skip = 0 ∧
      (mkBuilder [] [] [] 0).paginate.args.take = 10) ∧
    ((mkBuilder [("page", JVal.str "3"), ("limit", JVal.str "5")] [] [] 0).paginate.args.skip = 10 ∧
      (mkBuilder [("page", JVal.str "3"), ("limit", JVal.str "5")] [] [] 0).paginate.args.take = 5) := by
  refine ⟨⟨rfl, rfl⟩, ⟨?_, ?_⟩, ⟨?_, ?_⟩⟩ <;>
    simp [mkBuilder, PrismaQueryBuilder.paginate, objGet, jsToNumber, jsStrToNumber,
      trimChars, isJsWs, parseUnsignedDec, digitsVal, numOr] <;> norm_num

/-- C9: the auto-parse utility maps `"true"`/`"false"` to the booleans,
finite numeric literals such as `"42"` to the number, any other string
such as `"abc"` to itself, and every non-string value (arrays, objects,
numbers, booleans, dates, null, undefined) unchanged. -/
theorem autoParseValue_spec :
    autoParseValue (JVal.str "true") = JVal.bool true ∧
    autoParseValue (JVal.str "false") = JVal.bool false ∧
    autoParseValue (JVal.str "42") = JVal.num 42 ∧
    autoParseValue (JVal.str "abc") = JVal.str "abc" ∧
    autoParseValue (JVal.arr [JVal.str "a", JVal.str "b"]) =
      JVal.arr [JVal.str "a", JVal.str "b"] ∧
    (∀ n, autoParseValue (JVal.num n) = JVal.num n) ∧
    (∀ bl, autoParseValue (JVal.bool bl) = JVal.bool bl) ∧
    (∀ l, autoParseValue (JVal.arr l) = JVal.arr l) ∧
    (∀ o, autoParseValue (JVal.obj o) = JVal.obj o) ∧
    (∀ t, autoParseValue (JVal.date t) = JVal.date t) ∧
    autoParseValue JVal.null = JVal.null ∧
    autoParseValue JVal.undefined = JVal.undefined := by
  refine ⟨rfl, rfl, ?_, ?_, rfl, fun _ => rfl, fun _ => rfl, fun _ => rfl, fun _ => rfl,
    fun _ => rfl, rfl, rfl⟩
  · simp [autoParseValue, jsStrToNumber, trimChars, isJsWs, parseUnsignedDec, digitsVal,
      parseFloatHasNumber]
  · simp [autoParseValue, jsStrToNumber, trimChars, isJsWs, parseUnsignedDec, digitsVal,
      parseFloatHasNumber]

/-- When an operation does not throw on the (immutable) query, `applyOp`
computes exactly the total semantics `applyOpT`. -/
theorem applyOp_eq_ok (o : Op) (b : PrismaQueryBuilder) (h : opOk o b.query = true) :
    applyOp o b = .ok (applyOpT o b) := by
  cases o
  case filter => rfl
  case search => rfl
  case paginate => rfl
  case dateWise => rfl
  case sort =>
    simp only [applyOp, applyOpT]
    unfold PrismaQueryBuilder.sort
    simp only [opOk] at h
    rcases hv : objGet b.query "sort" with s | n | bb | l | ob | t <;>
      rw [hv] at h <;> simp_all [isSplitSafe, truthy]
    by_cases hs : s = "" <;> simp [hs]
  case fields =>
    simp only [applyOp, applyOpT]
    unfold PrismaQueryBuilder.fields
    simp only [opOk] at h
    rcases hv : objGet b.query "fields" with s | n | bb | l | ob | t <;>
      rw [hv] at h <;> simp_all [isSplitSafe, truthy]
    by_cases hs : s = "" <;> simp [hs]
  case populate =>
    simp only [applyOp, applyOpT]
    unfold PrismaQueryBuilder.populate
    simp only [opOk] at h
    rcases hv : objGet b.query "populate" with s | n | bb | l | ob | t <;>
      rw [hv] at h <;> simp_all [isSplitSafe, truthy]
    by_cases hs : s = "" <;> simp [hs]

/-- No configuration operation changes the query, the configured field
lists, or the abstracted current date. -/
theorem applyOpT_fixed (o : Op) (b : PrismaQueryBuilder) :
    (applyOpT o b).query = b.query ∧
    (applyOpT o b).searchableFields = b.searchableFields ∧
    (applyOpT o b).filterableFields = b.filterableFields ∧
    (applyOpT o b).today = b.today := by
  cases o <;>
    simp only [applyOpT, PrismaQueryBuilder.filter, PrismaQueryBuilder.search,
      PrismaQueryBuilder.paginate, PrismaQueryBuilder.dateWise.eq_def, sortWith, fieldsWith,
      populateWith] <;>
    (repeat' split) <;> simp

/-- The effective string argument of a `.split`-style parameter: `some`
when the query value is a non-empty string, otherwise `none` (falsy
values are skipped or defaulted; truthy non-strings throw instead). -/
def strParam (q : List (String × JVal)) (k : String) : Option String :=
  match objGet q k with
  | .str s => if s == "" then none else some s
  | _ => none

/-- The `orderBy` list `sort()` computes from the query. -/
def orderByOf (q : List (String × JVal)) : List (String × Dir) :=
  (jsSplitComma ((strParam q "sort").getD "-createdAt")).map sortToken

/-- The `page` value `paginate()` computes from the query. -/
def pageOf (q : List (String × JVal)) : Rat :=
  max 1 (numOr (jsToNumber (objGet q "page")) 1)

/-- The `take` value `paginate()` computes from the query. -/
def takeOf (q : List (String × JVal)) : Rat :=
  max 1 (numOr (jsToNumber (objGet q "limit")) 10)

/-- The search-clause update performed by `search()`. -/
def searchUpd (q : List (String × JVal)) (sf : List String)
    (sc : List (String × JVal)) : List (String × JVal) :=
  if truthy (objGet q "searchTerm") && !sf.isEmpty then
    searchClauseOf sf (objGet q "searchTerm")
  else sc

/-- The filter-clause update performed by `dateWise()`. -/
def dwUpd (q : List (String × JVal)) (td : Int) (wc : List (String × JVal)) :
    List (String × JVal) :=
  match jsParseInt (objGet q "days") with
  | some d =>
    if d ≠ 0 ∧ 0 < d then
      objMerge wc [(dateFieldName q, JVal.obj [("gte", JVal.date (td - d))])]
    else wc
  | none => wc

/-- The `select` update performed by `fields()`. -/
def fieldsSelUpd (q : List (String × JVal)) (sel : Option (List (String × Bool))) :
    Option (List (String × Bool)) :=
  match strParam q "fields" with
  | some s => some (boolObjOf s)
  | none => sel

/-- The `select` update performed by `populate()` (always erased when the
parameter is present). -/
def popSelUpd (q : List (String × JVal)) (sel : Option (List (String × Bool))) :
    Option (List (String × Bool)) :=
  match strParam q "populate" with
  | some _ => none
  | none => sel

/-- The `include` update performed by `populate()`. -/
def popIncUpd (q : List (String × JVal)) (inc : Option (List (String × Bool))) :
    Option (List (String × Bool)) :=
  match strParam q "populate" with
  | some s => some (boolObjOf s)
  | none => inc

/-- `filter` in component-update normal form. -/
theorem applyOpT_filter_nf (b : PrismaQueryBuilder) :
    applyOpT .filter b = { b with whereClause := filtersOf b.filterableFields b.query } := rfl

/-- `search` in component-update normal form. -/
theorem applyOpT_search_nf (b : PrismaQueryBuilder) :
    applyOpT .search b =
      { b with searchClause := searchUpd b.query b.searchableFields b.searchClause } := by
  simp only [applyOpT, PrismaQueryBuilder.search, searchUpd]
  split <;> simp

/-- `sort` (total semantics) in component-update normal form. -/
theorem applyOpT_sort_nf (b : PrismaQueryBuilder) :
    applyOpT .sort b = { b with args := { b.args with orderBy := some (orderByOf b.query) } } := by
  simp only [applyOpT, orderByOf, strParam]
  rcases hv : objGet b.query "sort" with s | n | bb | l | ob | t <;> simp [sortWith]
  by_cases hs : s = "" <;> simp [hs, sortWith]

/-- `paginate` in component-update normal form. -/
theorem applyOpT_paginate_nf (b : PrismaQueryBuilder) :
    applyOpT .paginate b =
      { b with args :=
          { b.args with skip := (pageOf b.query - 1) * takeOf b.query, take := takeOf b.query } } := rfl

/-- `fields` (total semantics) in component-update normal form. -/
theorem applyOpT_fields_nf (b : PrismaQueryBuilder) :
    applyOpT .fields b =
      { b with args := { b.args with select := fieldsSelUpd b.query b.args.select } } := by
  simp only [applyOpT, fieldsSelUpd, strParam]
  rcases hv : objGet b.query "fields" with s | n | bb | l | ob | t <;> simp
  by_cases hs : s = "" <;> simp [hs, fieldsWith]

/-- `populate` (total semantics) in component-update normal form. -/
theorem applyOpT_populate_nf (b : PrismaQueryBuilder) :
    applyOpT .populate b =
      { b with args :=
          { b.args with
            select := popSelUpd b.query b.args.select
            include' := popIncUpd b.query b.args.include' } } := by
  simp only [applyOpT, popSelUpd, popIncUpd, strParam]
  rcases hv : objGet b.query "populate" with s | n | bb | l | ob | t <;> simp
  by_cases hs : s = "" <;> simp [hs, populateWith]
  cases hsel : b.args.select <;> simp [hsel]

/-- `dateWise` in component-update normal form. -/
theorem applyOpT_dateWise_nf (b : PrismaQueryBuilder) :
    applyOpT .dateWise b =
      { b with whereClause := dwUpd b.query b.today b.whereClause } := by
  simp only [applyOpT, PrismaQueryBuilder.dateWise.eq_def, dwUpd]
  split <;> try split
  all_goals simp

/-- Core interchange law: outside the `filter`/`dateWise` pair, applying
two operations (total semantics) in either order yields the same final
plan.  (`filter` overwrites the whole filter clause while `dateWise`
merges into it, so only that pair is excluded.) -/
theorem getPrismaArgs_applyOpT_comm (a c : Op) (s : PrismaQueryBuilder)
    (h : ¬((a = .filter ∧ c = .dateWise) ∨ (a = .dateWise ∧ c = .filter))) :
    (applyOpT c (applyOpT a s)).getPrismaArgs = (applyOpT a (applyOpT c s)).getPrismaArgs := by
  obtain ⟨q, sf, ff, ⟨wa, ob, sk, tk, sel, inc⟩, w, sc, td⟩ := s
  cases a <;> cases c <;>
    first
      | (exfalso; apply h; left; constructor <;> rfl)
      | (exfalso; apply h; right; constructor <;> rfl)
      | (simp only [applyOpT_filter_nf, applyOpT_search_nf, applyOpT_sort_nf,
          applyOpT_paginate_nf, applyOpT_fields_nf, applyOpT_populate_nf,
          applyOpT_dateWise_nf] <;> rfl)
      | (simp only [applyOpT_fields_nf, applyOpT_populate_nf]
         rcases hp : strParam q "populate" with _ | ps <;>
           rcases hf : strParam q "fields" with _ | fs <;>
           simp [fieldsSelUpd, popSelUpd, popIncUpd, hp, hf, PrismaQueryBuilder.getPrismaArgs,
             PrismaQueryBuilder.buildFinalWhereClause])

/-- C8 (amended): the configuration operations are position-independent
except for the `filter`/`dateWise` pair — `filter()` overwrites the
entire filter clause, discarding what an earlier `dateWise()` merged into
it, so `filter` must come first.  Every other pair of operations
interchanges: when neither throws on the (immutable) query, applying them
in either order yields the same final plan, hence the same combined
filter expression. -/
theorem ops_commute (a c : Op) (s : PrismaQueryBuilder)
    (hpair : ¬((a = .filter ∧ c = .dateWise) ∨ (a = .dateWise ∧ c = .filter)))
    (ha : opOk a s.query = true) (hc : opOk c s.query = true) :
    Except.map PrismaQueryBuilder.getPrismaArgs ((applyOp a s).bind (applyOp c)) =
      Except.map PrismaQueryBuilder.getPrismaArgs ((applyOp c s).bind (applyOp a)) := by
  rw [applyOp_eq_ok a s ha, applyOp_eq_ok c s hc]
  simp only [Except.bind]
  rw [applyOp_eq_ok c _ (by rw [(applyOpT_fixed a s).1]; exact hc),
    applyOp_eq_ok a _ (by rw [(applyOpT_fixed c s).1]; exact ha)]
  simp only [Except.map]
  exact congrArg Except.ok (getPrismaArgs_applyOpT_comm a c s hpair)

/-- Witness for `ops_commute`: `sort` and `paginate` interchange on a
concrete builder. -/
theorem ops_commute_witness :
    Except.map PrismaQueryBuilder.getPrismaArgs
        ((applyOp .sort (mkBuilder [("sort", JVal.str "-name"), ("page", JVal.str "2")] [] [] 0)).bind
          (applyOp .paginate)) =
      Except.map PrismaQueryBuilder.getPrismaArgs
        ((applyOp .paginate (mkBuilder [("sort", JVal.str "-name"), ("page", JVal.str "2")] [] [] 0)).bind
          (applyOp .sort)) :=
  ops_commute .sort .paginate _ (by decide) rfl rfl

/-- C8 counterexample: with query `{days: "7", status: "active"}` and
allowlist `["status"]`, `filter` then `dateWise` keeps the status filter
and the date condition, but `dateWise` then `filter` loses the date
condition — the two orderings of the same set of calls give different
plans, so the operations are not position-independent. -/
theorem filter_dateWise_order_cex :
    Except.map (fun b => b.getPrismaArgs.whereArg.map Prod.fst)
        (runOps [.filter, .dateWise]
          (mkBuilder [("days", JVal.str "7"), ("status", JVal.str "active")] [] ["status"] 100)) =
      .ok ["status", "createdAt"] ∧
    Except.map (fun b => b.getPrismaArgs.whereArg.map Prod.fst)
        (runOps [.dateWise, .filter]
          (mkBuilder [("days", JVal.str "7"), ("status", JVal.str "active")] [] ["status"] 100)) =
      .ok ["status"] ∧
    (["status", "createdAt"] : List String) ≠ ["status"] :=
  ⟨rfl, rfl, by decide⟩

/-- C4 counterexample: a string-array value — inside the declared input
shape — makes `fields()` throw a `TypeError` instead of degrading to a
default. -/
theorem fields_array_throws_cex :
    (mkBuilder [("fields", JVal.arr [JVal.str "a", JVal.str "b"])] [] [] 0).fields =
      .error "TypeError" := rfl

/-- C4 (amended): no operation throws as long as the `sort`, `fields`
and `populate` parameters are strings or absent/falsy; `sort()`,
`fields()` and `populate()` throw a `TypeError` on a truthy non-string
(array or nested-map) value, and every parsing failure still degrades to
the documented default — unparseable `page`/`limit` fall back to the
pagination defaults and an unparseable `days` leaves the filter clause
unchanged. -/
theorem ops_no_throw_on_safe_params (b : PrismaQueryBuilder)
    (hs : isSplitSafe (objGet b.query "sort") = true)
    (hf : isSplitSafe (objGet b.query "fields") = true)
    (hp : isSplitSafe (objGet b.query "populate") = true) :
    (∀ o : Op, isOkE (applyOp o b) = true) ∧
    (jsToNumber (objGet b.query "page") = none →
      jsToNumber (objGet b.query "limit") = none →
      b.paginate.args.skip = 0 ∧ b.paginate.args.take = 10) ∧
    (jsParseInt (objGet b.query "days") = none →
      b.dateWise.whereClause = b.whereClause) := by
  refine ⟨?_, ?_, ?_⟩
  · intro o
    have hok : opOk o b.query = true := by cases o <;> simp [opOk, hs, hf, hp]
    rw [applyOp_eq_ok o b hok]
    rfl
  · intro h1 h2
    constructor <;> simp [PrismaQueryBuilder.paginate, h1, h2, numOr] <;> norm_num
  · intro h
    simp [PrismaQueryBuilder.dateWise, h]

/-- Witness for `ops_no_throw_on_safe_params`: `sort` succeeds on a
builder whose `page` parameter is unparseable. -/
theorem ops_no_throw_witness :
    isOkE (applyOp .sort
        (mkBuilder [("page", JVal.str "abc"), ("sort", JVal.str "name")] [] [] 0)) = true :=
  (ops_no_throw_on_safe_params
      (mkBuilder [("page", JVal.str "abc"), ("sort", JVal.str "name")] [] [] 0)
      rfl rfl rfl).1 .sort

/-- C7 counterexample: `sort()` throws a `TypeError` on a string-array
value, so the injected `count()` rejection is not the only externally
visible failure path of the builder. -/
theorem sort_array_throws_cex :
    (mkBuilder [("sort", JVal.arr [JVal.str "name"])] [] [] 0).sort = .error "TypeError" := rfl

/-- C7 (amended): when the injected `count()` rejects, `getMeta()`
surfaces that rejection to the caller unmodified, with no translation or
wrapping inside the builder; however it is not the builder's only
externally visible failure path, since `sort()`, `fields()` and
`populate()` throw a `TypeError` on truthy non-string parameter
values. -/
theorem getMeta_propagates_count_rejection {ε : Type} (b : PrismaQueryBuilder)
    (count : List (String × JVal) → Except ε Nat) (e : ε)
    (h : count b.buildFinalWhereClause = .error e) :
    b.getMeta count = .error e := by
  unfold PrismaQueryBuilder.getMeta
  rw [h]

/-- Witness for `getMeta_propagates_count_rejection`: a concrete
rejecting `count` surfaces unmodified. -/
theorem getMeta_propagates_witness :
    (mkBuilder [] [] [] 0).getMeta
        (fun _ => (.error "storage unavailable" : Except String Nat)) =
      .error "storage unavailable" :=
  getMeta_propagates_count_rejection _ _ _ rfl

/-- The field-name keys of a JS-object association list. -/
def keysOf (o : List (String × JVal)) : List String := o.map Prod.fst

/-- A key of `objSet o k v` is a key of `o` or is `k`. -/
theorem keysOf_objSet (o : List (String × JVal)) (k : String) (v : JVal) :
    ∀ x ∈ keysOf (objSet o k v), x ∈ keysOf o ∨ x = k := by
  intro x hx
  unfold objSet at hx
  split at hx
  · simp only [keysOf, List.map_map, List.mem_map, Function.comp] at hx
    obtain ⟨a, ha, hax⟩ := hx
    by_cases hk : (a.1 == k) = true
    · right
      rw [if_pos hk] at hax
      exact hax.symm
    · left
      rw [if_neg hk] at hax
      exact List.mem_map.2 ⟨a, ha, hax⟩
  · simp only [keysOf, List.map_append] at hx
    rcases List.mem_append.1 hx with h | h
    · exact Or.inl h
    · right
      simpa using h

/-- A key of `objDelete o k` is a key of `o` different from `k`. -/
theorem keysOf_objDelete (o : List (String × JVal)) (k : String) :
    ∀ x ∈ keysOf (objDelete o k), x ∈ keysOf o ∧ x ≠ k := by
  intro x hx
  simp only [keysOf, objDelete, List.mem_map] at hx
  obtain ⟨p, hp, hpx⟩ := hx
  rw [List.mem_filter] at hp
  refine ⟨List.mem_map.2 ⟨p, hp.1, hpx⟩, ?_⟩
  have := hp.2
  simp only [bne_iff_ne, ne_eq] at this
  exact hpx ▸ this

/-- A key surviving the deletion of every reserved field is a key of the
original object outside the reserved list. -/
theorem keysOf_foldl_objDelete (l : List String) (q : List (String × JVal)) :
    ∀ x ∈ keysOf (l.foldl objDelete q), x ∈ keysOf q ∧ x ∉ l := by
  induction l generalizing q with
  | nil => exact fun x hx => ⟨hx, List.not_mem_nil x⟩
  | cons a t ih =>
    intro x hx
    obtain ⟨h1, h2⟩ := ih (objDelete q a) x hx
    obtain ⟨h3, h4⟩ := keysOf_objDelete q a x h1
    exact ⟨h3, by simp [h4, h2]⟩

/-- A key produced by the filter-building fold is a key of the initial
accumulator or an allowlisted key of the iterated list. -/
theorem keysOf_foldl_filterStep (ff : List String) (l : List (String × JVal))
    (init : List (String × JVal)) :
    ∀ x ∈ keysOf (l.foldl (filterStep ff) init),
      x ∈ keysOf init ∨ (x ∈ keysOf l ∧ x ∈ ff) := by
  induction l generalizing init with
  | nil => exact fun x hx => Or.inl hx
  | cons p t ih =>
    intro x hx
    rcases ih (filterStep ff init p) x hx with h | h
    · unfold filterStep at h
      by_cases hc : ff.contains p.1
      · rw [if_pos hc] at h
        have hcm : p.1 ∈ ff := by
          simpa using hc
        have hset : ∀ w, x ∈ keysOf (objSet init p.1 w) → x ∈ keysOf init ∨ x = p.1 :=
          fun w => keysOf_objSet init p.1 w x
        have : x ∈ keysOf init ∨ x = p.1 := by
          rcases hv : p.2 with s | n | bb | lv | ob | t' <;> rw [hv] at h <;> exact hset _ h
        rcases this with h' | h'
        · exact Or.inl h'
        · exact Or.inr ⟨by simp [keysOf, h'], h' ▸ hcm⟩
      · rw [if_neg hc] at h
        exact Or.inl h
    · exact Or.inr ⟨by simp [keysOf] at h ⊢; exact Or.inr h.1, h.2⟩

/-- Every key of the clause computed by `filter()` is allowlisted and is
not a reserved key. -/
theorem keysOf_filtersOf (ff : List String) (q : List (String × JVal)) :
    ∀ x ∈ keysOf (filtersOf ff q), x ∈ ff ∧ x ∉ excludeFields := by
  intro x hx
  unfold filtersOf at hx
  rcases keysOf_foldl_filterStep ff _ [] x hx with h | ⟨h1, h2⟩
  · simp [keysOf] at h
  · refine ⟨h2, ?_⟩
    have hsub : x ∈ keysOf (excludeFields.foldl objDelete q) := by
      simp only [keysOf, List.mem_map] at h1 ⊢
      obtain ⟨p, hp, hpx⟩ := h1
      exact ⟨p, (List.mem_filter.1 hp).1, hpx⟩
    exact (keysOf_foldl_objDelete excludeFields q x hsub).2

/-- A successful `applyOp` computes exactly the total semantics. -/
theorem applyOp_ok_inv (o : Op) (b b1 : PrismaQueryBuilder)
    (h : applyOp o b = .ok b1) : b1 = applyOpT o b := by
  cases o
  case filter =>
    simp only [applyOp] at h
    exact (Except.ok.inj h).symm
  case search =>
    simp only [applyOp] at h
    exact (Except.ok.inj h).symm
  case paginate =>
    simp only [applyOp] at h
    exact (Except.ok.inj h).symm
  case dateWise =>
    simp only [applyOp] at h
    exact (Except.ok.inj h).symm
  case sort =>
    simp only [applyOp, PrismaQueryBuilder.sort, applyOpT] at h ⊢
    rcases hv : objGet b.query "sort" with s | n | bb | l | ob | t <;>
      rw [hv] at h <;> simp_all [truthy]
    · by_cases hs : s = "" <;> simp_all
    · by_cases hn : n = 0 <;> simp_all
    · by_cases hb : bb = true <;> simp_all
  case fields =>
    simp only [applyOp, PrismaQueryBuilder.fields, applyOpT] at h ⊢
    rcases hv : objGet b.query "fields" with s | n | bb | l | ob | t <;>
      rw [hv] at h <;> simp_all [truthy]
    · by_cases hs : s = "" <;> simp_all
    · by_cases hn : n = 0 <;> simp_all
    · by_cases hb : bb = true <;> simp_all
  case populate =>
    simp only [applyOp, PrismaQueryBuilder.populate, applyOpT] at h ⊢
    rcases hv : objGet b.query "populate" with s | n | bb | l | ob | t <;>
      rw [hv] at h <;> simp_all [truthy]
    · by_cases hs : s = "" <;> simp_all
    · by_cases hn : n = 0 <;> simp_all
    · by_cases hb : bb = true <;> simp_all

/-- One configuration step: any key of the new filter clause is an
allowlisted non-reserved key (from `filter`), the date-field key (from
`dateWise`), or was already a key of the old filter clause. -/
theorem wcKeys_step (o : Op) (b : PrismaQueryBuilder) :
    ∀ k ∈ keysOf (applyOpT o b).whereClause,
      (k ∈ b.filterableFields ∧ k ∉ excludeFields) ∨ k = dateFieldName b.query ∨
        k ∈ keysOf b.whereClause := by
  intro k hk
  cases o
  case filter =>
    rw [applyOpT_filter_nf] at hk
    exact Or.inl (keysOf_filtersOf b.filterableFields b.query k hk)
  case dateWise =>
    rw [applyOpT_dateWise_nf] at hk
    unfold dwUpd at hk
    split at hk
    · split at hk
      · rcases keysOf_objSet b.whereClause (dateFieldName b.query) _ k hk with h | h
        · exact Or.inr (Or.inr h)
        · exact Or.inr (Or.inl h)
      · exact Or.inr (Or.inr hk)
    · exact Or.inr (Or.inr hk)
  case search =>
    rw [applyOpT_search_nf] at hk
    exact Or.inr (Or.inr hk)
  case sort =>
    rw [applyOpT_sort_nf] at hk
    exact Or.inr (Or.inr hk)
  case paginate =>
    rw [applyOpT_paginate_nf] at hk
    exact Or.inr (Or.inr hk)
  case fields =>
    rw [applyOpT_fields_nf] at hk
    exact Or.inr (Or.inr hk)
  case populate =>
    rw [applyOpT_populate_nf] at hk
    exact Or.inr (Or.inr hk)

/-- Keys of the filter clause after any successful chain of
configuration calls: allowlisted non-reserved, the date-field key, or
inherited from the starting state. -/
theorem runOps_wcKeys (ops : List Op) (b b' : PrismaQueryBuilder)
    (h : runOps ops b = .ok b') :
    ∀ k ∈ keysOf b'.whereClause,
      (k ∈ b.filterableFields ∧ k ∉ excludeFields) ∨ k = dateFieldName b.query ∨
        k ∈ keysOf b.whereClause := by
  induction ops generalizing b with
  | nil =>
    intro k hk
    simp only [runOps] at h
    exact Or.inr (Or.inr ((Except.ok.inj h) ▸ hk))
  | cons o t ih =>
    intro k hk
    simp only [runOps] at h
    cases hob : applyOp o b with
    | error e => rw [hob] at h; exact absurd h (by simp [Except.bind])
    | ok b1 =>
      rw [hob] at h
      simp only [Except.bind] at h
      have hb1 : b1 = applyOpT o b := applyOp_ok_inv o b b1 hob
      have hfix := applyOpT_fixed o b
      rcases ih b1 h k hk with ⟨h1, h2⟩ | h1 | h1
      · rw [hb1, hfix.2.2.1] at h1
        exact Or.inl ⟨h1, h2⟩
      · rw [hb1, hfix.1] at h1
        exact Or.inr (Or.inl h1)
      · rw [hb1] at h1
        exact wcKeys_step o b k h1

/-- C2 (amended): for every query mapping and every successful sequence
of configuration calls, each field-name key of the resulting filter
clause either belongs to the caller-supplied `filterableFields` allowlist
(keys outside it are silently dropped by `filter()`, never an error) or
is the `dateWise()` date-field key — `query.dateField`, default
`createdAt` — which `dateWise()` merges in without consulting the
allowlist. -/
theorem whereClause_keys_allowlist (ops : List Op) (q : List (String × JVal))
    (sf ff : List String) (d : Int) (b' : PrismaQueryBuilder)
    (h : runOps ops (mkBuilder q sf ff d) = .ok b') :
    ∀ k ∈ keysOf b'.whereClause, k ∈ ff ∨ k = dateFieldName q := by
  intro k hk
  rcases runOps_wcKeys ops _ b' h k hk with ⟨h1, _⟩ | h1 | h1
  · exact Or.inl h1
  · exact Or.inr h1
  · simp [mkBuilder, keysOf] at h1

/-- Witness for `whereClause_keys_allowlist` on a concrete run of
`filter()`. -/
theorem whereClause_keys_allowlist_witness :
    "status" ∈ ["status"] ∨ "status" = dateFieldName [("status", JVal.str "active")] :=
  whereClause_keys_allowlist [.filter] [("status", JVal.str "active")] [] ["status"] 0
    ((mkBuilder [("status", JVal.str "active")] [] ["status"] 0).filter) rfl
    "status" (by decide)

/-- C2 counterexample: with an empty allowlist and query `{days: "7"}`,
the configuration call `dateWise()` puts the key `createdAt` into the
filter expression even though it is not in `filterableFields`. -/
theorem dateWise_unlisted_key_cex :
    Except.map (fun b => b.getPrismaArgs.whereArg.map Prod.fst)
        (runOps [.dateWise] (mkBuilder [("days", JVal.str "7")] [] [] 0)) =
      .ok ["createdAt"] ∧
    "createdAt" ∉ ([] : List String) :=
  ⟨rfl, by decide⟩

/-- C3 (amended): no reserved key (`searchTerm`, `sort`, `fields`,
`page`, `limit`, `days`, `dateField`, `populate`) ever enters the filter
clause through `filter()`; the only way one can appear is as the
`dateWise()` date-field key, since `dateWise()` uses the caller-supplied
`dateField` name verbatim. -/
theorem reserved_keys_not_in_filter (ops : List Op) (q : List (String × JVal))
    (sf ff : List String) (d : Int) (b' : PrismaQueryBuilder)
    (h : runOps ops (mkBuilder q sf ff d) = .ok b') :
    ∀ k ∈ keysOf b'.whereClause, k ∉ excludeFields ∨ k = dateFieldName q := by
  intro k hk
  rcases runOps_wcKeys ops _ b' h k hk with ⟨_, h2⟩ | h1 | h1
  · exact Or.inl h2
  · exact Or.inr h1
  · simp [mkBuilder, keysOf] at h1

/-- Witness for `reserved_keys_not_in_filter` on a concrete run of
`filter()`. -/
theorem reserved_keys_not_in_filter_witness :
    "status" ∉ excludeFields ∨ "status" = dateFieldName [("status", JVal.str "active")] :=
  reserved_keys_not_in_filter [.filter] [("status", JVal.str "active")] [] ["status"] 0
    ((mkBuilder [("status", JVal.str "active")] [] ["status"] 0).filter) rfl
    "status" (by decide)

/-- C3 counterexample: with query `{days: "7", dateField: "limit"}`,
`dateWise()` puts the reserved key `limit` into the filter expression as
a field-name key. -/
theorem dateWise_reserved_key_cex :
    Except.map (fun b => b.getPrismaArgs.whereArg.map Prod.fst)
        (runOps [.dateWise]
          (mkBuilder [("days", JVal.str "7"), ("dateField", JVal.str "limit")] [] [] 0)) =
      .ok ["limit"] ∧
    "limit" ∈ excludeFields :=
  ⟨rfl, by decide⟩

/-- `getPrismaArgs` copies `skip` and `take` from the accumulated
arguments unchanged. -/
theorem getPrismaArgs_skip_take (b : PrismaQueryBuilder) :
    b.getPrismaArgs.skip = b.args.skip ∧ b.getPrismaArgs.take = b.args.take := by
  unfold PrismaQueryBuilder.getPrismaArgs
  cases hi : b.args.include' <;> simp [hi]

/-- Every operation other than `paginate` leaves `skip` and `take`
unchanged. -/
theorem skipTake_step (o : Op) (b : PrismaQueryBuilder) (hno : o ≠ .paginate) :
    (applyOpT o b).args.skip = b.args.skip ∧ (applyOpT o b).args.take = b.args.take := by
  cases o
  case paginate => exact absurd rfl hno
  case filter => rw [applyOpT_filter_nf]; exact ⟨rfl, rfl⟩
  case search => rw [applyOpT_search_nf]; exact ⟨rfl, rfl⟩
  case sort => rw [applyOpT_sort_nf]; exact ⟨rfl, rfl⟩
  case fields => rw [applyOpT_fields_nf]; exact ⟨rfl, rfl⟩
  case populate => rw [applyOpT_populate_nf]; exact ⟨rfl, rfl⟩
  case dateWise => rw [applyOpT_dateWise_nf]; exact ⟨rfl, rfl⟩

/-- A successful chain that never calls `paginate` leaves `skip` and
`take` at their starting values. -/
theorem runOps_skip_take (ops : List Op) (hno : Op.paginate ∉ ops)
    (b b' : PrismaQueryBuilder) (h : runOps ops b = .ok b') :
    b'.args.skip = b.args.skip ∧ b'.args.take = b.args.take := by
  induction ops generalizing b with
  | nil =>
    simp only [runOps] at h
    exact (Except.ok.inj h) ▸ ⟨rfl, rfl⟩
  | cons o t ih =>
    simp only [runOps] at h
    cases hob : applyOp o b with
    | error e => rw [hob] at h; exact absurd h (by simp [Except.bind])
    | ok b1 =>
      rw [hob] at h
      simp only [Except.bind] at h
      have hb1 : b1 = applyOpT o b := applyOp_ok_inv o b b1 hob
      have hstep := skipTake_step o b (fun he => hno (he ▸ List.mem_cons_self o t))
      have hrest := ih (fun ht => hno (List.mem_cons_of_mem o ht)) b1 h
      rw [hb1] at hrest
      exact ⟨hrest.1.trans hstep.1, hrest.2.trans hstep.2⟩

/-- C10: if `paginate()` is never called, the final plan keeps the
constructor's defaults `skip = 0` and `take = 20` — not the `take = 10`
default that `paginate()` applies when the `limit` parameter is
missing. -/
theorem plan_defaults_without_paginate (ops : List Op) (hno : Op.paginate ∉ ops)
    (q : List (String × JVal)) (sf ff : List String) (d : Int)
    (b' : PrismaQueryBuilder) (h : runOps ops (mkBuilder q sf ff d) = .ok b') :
    b'.getPrismaArgs.skip = 0 ∧ b'.getPrismaArgs.take = 20 := by
  have hrun := runOps_skip_take ops hno _ b' h
  have hplan := getPrismaArgs_skip_take b'
  exact ⟨hplan.1.trans hrun.1, hplan.2.trans hrun.2⟩

/-- Witness for `plan_defaults_without_paginate` on a concrete chain of
`filter` and `sort`. -/
theorem plan_defaults_without_paginate_witness :
    (sortWith ((mkBuilder [("status", JVal.str "active")] [] ["status"] 0).filter)
        "-createdAt").getPrismaArgs.skip = 0 ∧
    (sortWith ((mkBuilder [("status", JVal.str "active")] [] ["status"] 0).filter)
        "-createdAt").getPrismaArgs.take = 20 :=
  plan_defaults_without_paginate [.filter, .sort] (by decide)
    [("status", JVal.str "active")] [] ["status"] 0 _ rfl
